import Mathlib

/-!
Verification of the menu digitization pipeline (OCR fallback chain, content
hashing, dedup checks, Supabase persistence) as implemented in the end-to-end
test script of the repository. Database calls are embedded as pure state
transitions over an explicit relational state, with injectable per-call
error outcomes standing for transport / constraint failures reported by the
database client.
-/

set_option maxRecDepth 4000

namespace Paquapp

/-! ## Generic helpers -/

/-- Fuel-driven worker for `chunked`; the fuel only enforces structural
termination and is irrelevant once it is at least the list length. -/
def chunkedAux (n : Nat) : Nat → List α → List (List α)
  | 0, _ => []
  | _, [] => []
  | fuel + 1, x :: xs => (x :: xs).take n :: chunkedAux n fuel ((x :: xs).drop n)

/-- Split a list into consecutive chunks of size `n` (the last chunk may be
shorter), mirroring the batching loop `for (i = 0; i < allDishes.length; i += BATCH_SIZE)`. -/
def chunked (n : Nat) (l : List α) : List (List α) := chunkedAux n l.length l

/-! ## SHA-256 over byte lists (models node crypto createHash sha256 / digest hex)

32-bit machine words are embedded as natural numbers reduced mod `2 ^ 32`. -/

/-- The modulus `2 ^ 32` of 32-bit words. -/
def M32 : Nat := 4294967296

/-- Right-rotate a 32-bit word by `n` bits. -/
def rotr32 (n x : Nat) : Nat := (x >>> n) ||| ((x <<< (32 - n)) % M32)

/-- Bitwise complement of a 32-bit word. -/
def not32 (x : Nat) : Nat := x ^^^ 4294967295

/-- SHA-256 Ch function. -/
def ch32 (x y z : Nat) : Nat := (x &&& y) ^^^ (not32 x &&& z)

/-- SHA-256 Maj function. -/
def maj32 (x y z : Nat) : Nat := (x &&& y) ^^^ (x &&& z) ^^^ (y &&& z)

/-- SHA-256 big sigma 0. -/
def bigS0 (x : Nat) : Nat := rotr32 2 x ^^^ rotr32 13 x ^^^ rotr32 22 x

/-- SHA-256 big sigma 1. -/
def bigS1 (x : Nat) : Nat := rotr32 6 x ^^^ rotr32 11 x ^^^ rotr32 25 x

/-- SHA-256 small sigma 0. -/
def smallS0 (x : Nat) : Nat := rotr32 7 x ^^^ rotr32 18 x ^^^ (x >>> 3)

/-- SHA-256 small sigma 1. -/
def smallS1 (x : Nat) : Nat := rotr32 17 x ^^^ rotr32 19 x ^^^ (x >>> 10)

/-- The 64 SHA-256 round constants (FIPS 180-4), in decimal. -/
def K256 : List Nat :=
  [1116352408, 1899447441, 3049323471, 3921009573,
   961987163, 1508970993, 2453635748, 2870763221,
   3624381080, 310598401, 607225278, 1426881987,
   1925078388, 2162078206, 2614888103, 3248222580,
   3835390401, 4022224774, 264347078, 604807628,
   770255983, 1249150122, 1555081692, 1996064986,
   2554220882, 2821834349, 2952996808, 3210313671,
   3336571891, 3584528711, 113926993, 338241895,
   666307205, 773529912, 1294757372, 1396182291,
   1695183700, 1986661051, 2177026350, 2456956037,
   2730485921, 2820302411, 3259730800, 3345764771,
   3516065817, 3600352804, 4094571909, 275423344,
   430227734, 506948616, 659060556, 883997877,
   958139571, 1322822218, 1537002063, 1747873779,
   1955562222, 2024104815, 2227730452, 2361852424,
   2428436474, 2756734187, 3204031479, 3329325298]

/-- Eight-word SHA-256 working state. -/
structure Sha256State where
  a : Nat
  b : Nat
  c : Nat
  d : Nat
  e : Nat
  f : Nat
  g : Nat
  h : Nat
deriving DecidableEq, Repr

/-- The SHA-256 initial hash value, in decimal. -/
def sha256Init : Sha256State :=
  ⟨1779033703, 3144134277, 1013904242, 2773480762,
   1359893119, 2600822924, 528734635, 1541459225⟩

/-- Big-endian serialization of `x` into `n` bytes. -/
def beBytes (n x : Nat) : List Nat :=
  (List.range n).map fun i => (x >>> (8 * (n - 1 - i))) % 256

/-- FIPS 180-4 padding: append 0x80, zero bytes up to 56 mod 64, then the
64-bit big-endian bit length. -/
def padMessage (msg : List Nat) : List Nat :=
  let len := msg.length
  let zeros := (56 + 64 - (len + 1) % 64) % 64
  msg ++ [0x80] ++ List.replicate zeros 0 ++ beBytes 8 (8 * len)

/-- Extend the reversed message-schedule word list by `fuel` more words and
return the full schedule in forward order. -/
def extendW (fuel : Nat) (wrev : List Nat) : List Nat :=
  match fuel with
  | 0 => wrev.reverse
  | f + 1 =>
    let g := fun i => wrev.getD (i - 1) 0
    let next := (smallS1 (g 2) + g 7 + smallS0 (g 15) + g 16) % M32
    extendW f (next :: wrev)

/-- One SHA-256 compression round with round constant and schedule word `kw`. -/
def sha256Round (s : Sha256State) (kw : Nat × Nat) : Sha256State :=
  let t1 := (s.h + bigS1 s.e + ch32 s.e s.f s.g + kw.1 + kw.2) % M32
  let t2 := (bigS0 s.a + maj32 s.a s.b s.c) % M32
  ⟨(t1 + t2) % M32, s.a, s.b, s.c, (s.d + t1) % M32, s.e, s.f, s.g⟩

/-- Big-endian 32-bit words of a byte list taken four bytes at a time
(any trailing partial group is ignored; padded messages have none). -/
def beWords : List Nat → List Nat
  | b0 :: b1 :: b2 :: b3 :: rest => (((b0 * 256 + b1) * 256 + b2) * 256 + b3) :: beWords rest
  | _ => []

/-- Compress one 64-byte block into the running state. -/
def sha256Block (st : Sha256State) (block : List Nat) : Sha256State :=
  let w := extendW 48 ((beWords block).reverse)
  let r := (K256.zip w).foldl sha256Round st
  ⟨(st.a + r.a) % M32, (st.b + r.b) % M32, (st.c + r.c) % M32, (st.d + r.d) % M32,
   (st.e + r.e) % M32, (st.f + r.f) % M32, (st.g + r.g) % M32, (st.h + r.h) % M32⟩

/-- SHA-256 digest (32 bytes) of a byte list. -/
def sha256Bytes (msg : List Nat) : List Nat :=
  let fin := (chunked 64 (padMessage msg)).foldl sha256Block sha256Init
  [fin.a, fin.b, fin.c, fin.d, fin.e, fin.f, fin.g, fin.h].flatMap (beBytes 4)

/-- Lowercase hex digit for a value below 16. -/
def hexDigit (n : Nat) : Char :=
  if n < 10 then Char.ofNat (48 + n) else Char.ofNat (87 + n)

/-- Lowercase hex string of a byte list. -/
def toHex (bytes : List Nat) : String :=
  ⟨bytes.flatMap fun b => [hexDigit (b / 16), hexDigit (b % 16)]⟩

/-- UTF-8 encoding of one character. -/
def utf8Char (c : Char) : List Nat :=
  let n := c.toNat
  if n < 0x80 then [n]
  else if n < 0x800 then [0xc0 ||| (n >>> 6), 0x80 ||| (n &&& 0x3f)]
  else if n < 0x10000 then
    [0xe0 ||| (n >>> 12), 0x80 ||| ((n >>> 6) &&& 0x3f), 0x80 ||| (n &&& 0x3f)]
  else
    [0xf0 ||| (n >>> 18), 0x80 ||| ((n >>> 12) &&& 0x3f),
     0x80 ||| ((n >>> 6) &&& 0x3f), 0x80 ||| (n &&& 0x3f)]

/-- UTF-8 bytes of a string (Buffer.from(s, utf8)). -/
def utf8Bytes (s : String) : List Nat := s.data.flatMap utf8Char

/-- Embeds `calculateSHA256(buffer)`: hex-encoded SHA-256 digest of a byte
buffer, that is `crypto.createHash('sha256').update(buffer).digest('hex')`. -/
def calculateSHA256 (buffer : List Nat) : String := toHex (sha256Bytes buffer)

/-! ## JavaScript string normalization helpers -/

/-- Whitespace in the sense of the ECMAScript regexp class backslash-s and of
String.prototype.trim: tab through carriage return, space, NBSP, Ogham space,
the U+2000 block, line/paragraph separators, narrow NBSP, mathematical space,
ideographic space, and the BOM. -/
def jsWhitespaceChar (c : Char) : Bool :=
  let n := c.toNat
  (decide (9 ≤ n) && decide (n ≤ 13)) || n == 32 || n == 160 || n == 5760 ||
    (decide (8192 ≤ n) && decide (n ≤ 8202)) || n == 8232 || n == 8233 ||
    n == 8239 || n == 8287 || n == 12288 || n == 65279

/-- Embeds `s.trim()`: remove leading and trailing JS whitespace. -/
def jsTrim (s : String) : String :=
  ⟨((s.data.dropWhile jsWhitespaceChar).reverse.dropWhile jsWhitespaceChar).reverse⟩

/-- Replace every maximal run of whitespace by a single space; the flag records
whether the previous character belonged to a run. -/
def collapseWsAux (inRun : Bool) : List Char → List Char
  | [] => []
  | c :: rest =>
    if jsWhitespaceChar c then
      if inRun then collapseWsAux true rest else ' ' :: collapseWsAux true rest
    else c :: collapseWsAux false rest

/-- Embeds the description normalization `value.trim().replace(re-of-runs-of-s, ' ')`. -/
def normDescription (s : String) : String := ⟨collapseWsAux false (jsTrim s).data⟩

/-! ## JSON values

JSON values as produced by JSON.parse: objects are field lists that record key
insertion order (JS objects cannot hold a key twice, so well-formed values have
nodup keys); numbers are represented by their canonical JS serialization, which
is all the hashing pipeline ever uses of them. -/

inductive Json where
  | null
  | bool (b : Bool)
  | num (strRepr : String)
  | str (s : String)
  | arr (elems : List Json)
  | obj (fields : List (String × Json))

/-! ## `normalizeTextValues` (from `calculateContentHash`)

The source walks the object graph mutating strings in place: under the keys
`name` and `category` strings are trimmed, under `description` they are trimmed
and internally collapsed, all other strings (including strings that are direct
array elements, whose keys are array indices) are untouched; arrays and nested
objects are recursed into. -/

mutual

def normalizeTextValues : Json → Json
  | .obj fields => .obj (normFields fields)
  | .arr items => .arr (normItems items)
  | j => j

def normItems : List Json → List Json
  | [] => []
  | x :: xs => normalizeTextValues x :: normItems xs

def normFields : List (String × Json) → List (String × Json)
  | [] => []
  | (k, v) :: rest => (k, normEntry k v) :: normFields rest

def normEntry (key : String) : Json → Json
  | .str s =>
    if key = "name" || key = "category" then .str (jsTrim s)
    else if key = "description" then .str (normDescription s)
    else .str s
  | .arr items => .arr (normItems items)
  | .obj fields => .obj (normFields fields)
  | j => j

end

/-! ## `fast-json-stable-stringify` -/

/-- Escape one character as JSON.stringify does inside string literals. -/
def escapeChar (c : Char) : List Char :=
  if c = '"' then ['\\', '"']
  else if c = '\\' then ['\\', '\\']
  else if c.toNat = 8 then ['\\', 'b']
  else if c.toNat = 12 then ['\\', 'f']
  else if c = '\n' then ['\\', 'n']
  else if c = '\r' then ['\\', 'r']
  else if c = '\t' then ['\\', 't']
  else if c.toNat < 32 then ['\\', 'u', '0', '0', hexDigit (c.toNat / 16), hexDigit (c.toNat % 16)]
  else [c]

/-- Embeds JSON.stringify of a string value. -/
def jsonQuote (s : String) : String := ⟨('"' :: s.data.flatMap escapeChar) ++ ['"']⟩

/-- Lexicographic comparison of character lists by code point, the order the
default Array.prototype.sort comparator gives on the (BMP) key strings of the
menu schema. -/
def charListLe : List Char → List Char → Bool
  | [], _ => true
  | _ :: _, [] => false
  | a :: as, b :: bs =>
    if a.toNat < b.toNat then true
    else if b.toNat < a.toNat then false
    else charListLe as bs

/-- Key order used by fast-json-stable-stringify via Object.keys(node).sort(). -/
def keyLe (a b : String) : Bool := charListLe a.data b.data

/-- Order on serialized object fields: compare keys only. -/
def pairLe (a b : String × String) : Prop := keyLe a.1 b.1 = true

instance : DecidableRel pairLe := fun a b => instDecidableEqBool (keyLe a.1 b.1) true

/-- Sort serialized object fields by key. The source sorts the key array and
then serializes each looked-up value; since the comparator only reads keys and
JS objects have unique keys, sorting the (key, serialized value) pairs is the
same operation. -/
def sortPairs (l : List (String × String)) : List (String × String) :=
  List.insertionSort pairLe l

mutual

/-- Embeds fast-json-stable-stringify with default options: arrays in order,
object fields sorted by key. (The undefined-dropping branches are vacuous here:
JSON.parse output contains no undefined and no toJSON.) -/
def stableStringify : Json → String
  | .null => "null"
  | .bool b => if b then "true" else "false"
  | .num r => r
  | .str s => jsonQuote s
  | .arr items => "[" ++ String.intercalate "," (stringifyItems items) ++ "]"
  | .obj fields =>
    "\x7b" ++ String.intercalate ","
      ((sortPairs (stringifyFields fields)).map fun kv => jsonQuote kv.1 ++ ":" ++ kv.2) ++ "\x7d"

def stringifyItems : List Json → List String
  | [] => []
  | x :: xs => stableStringify x :: stringifyItems xs

def stringifyFields : List (String × Json) → List (String × String)
  | [] => []
  | (k, v) :: rest => (k, stableStringify v) :: stringifyFields rest

end

/-- Embeds `calculateContentHash(structuredData)`: deep-copy (identity on
values), normalize text in place, serialize with fast-json-stable-stringify,
and hash the UTF-8 bytes with SHA-256. The debug logging to the test-results
directory is side-effect only and is omitted. -/
def calculateContentHash (structuredData : Json) : String :=
  calculateSHA256 (utf8Bytes (stableStringify (normalizeTextValues structuredData)))

/-! ## OCR extraction with fallback chain -/

/-- One entry of the vision model cascade. -/
structure OcrModelEntry where
  id : String
  name : String
deriving DecidableEq, Repr

/-- The statically configured provider cascade, in order of preference. -/
def OCR_MODEL_CHAIN : List OcrModelEntry :=
  [⟨"meta-llama/llama-3.2-11b-vision-instruct:free", "Llama 3.2 Vision (Free)"⟩,
   ⟨"qwen/qwen-2.5-vl-7b-instruct:free", "Qwen 2.5 VL (Free)"⟩,
   ⟨"google/gemini-flash-1.5", "Gemini Flash 1.5"⟩,
   ⟨"openai/gpt-4o-mini", "GPT-4o Mini"⟩,
   ⟨"anthropic/claude-3-haiku", "Claude 3 Haiku"⟩,
   ⟨"anthropic/claude-3.5-sonnet", "Claude 3.5 Sonnet"⟩]

/-- Outcome of one provider attempt, as observed by the loop body: the fetch
aborts at the 45 s deadline (AbortError), throws otherwise, returns a
non-success HTTP response, or returns a parsed body whose
`choices[0].message.content` is the given value (`none` when the field is
missing or not a string). -/
inductive AttemptOutcome where
  | timeout
  | exn (msg : String)
  | httpError (status : Nat) (body : String)
  | response (content : Option String)

/-- The successful return value of the fallback chain; the clock-derived
metadata fields (responseTime, extractedAt, textLength) are omitted. -/
structure OcrSuccess where
  text : String
  modelId : String
  modelName : String
deriving DecidableEq, Repr

/-- Message of the error thrown when the whole cascade is exhausted. -/
def ocrExhaustedMsg : String :=
  "OCR failed – all models failed to extract valid text from the image"

/-- Validation applied to a parsed response: the content must be a string that
is truthy and at least 20 characters long after trimming; on success the
extracted text is returned. -/
def attemptSucceeds : AttemptOutcome → Option String
  | .response (some s) => if 20 ≤ (jsTrim s).length then some s else none
  | _ => none

/-- Sub-failure classification of a failed attempt (none for a valid success):
deadline expiry is a timeout, exceptions and non-success responses are provider
errors, and a parsed response with missing or too-short text is insufficient
output. In the source these are distinguished only in log lines. -/
inductive SubFailure where
  | timeoutFailure
  | providerError
  | insufficientOutput
deriving DecidableEq, Repr

/-- Classify the sub-failure of an attempt outcome. -/
def subFailureOf (o : AttemptOutcome) : Option SubFailure :=
  match o with
  | .timeout => some .timeoutFailure
  | .exn _ => some .providerError
  | .httpError _ _ => some .providerError
  | .response c =>
    if (attemptSucceeds (.response c)).isSome then none else some .insufficientOutput

/-- Embeds the for-loop of `runOcrWithFallbackChain` over an arbitrary tail of
the cascade starting at attempt index `i`; the environment `env` gives the
outcome of each attempt. Returns the result together with the ordered list of
ids of the providers actually invoked. -/
def runOcrChain (env : Nat → AttemptOutcome) :
    List OcrModelEntry → Nat → Except String OcrSuccess × List String
  | [], _ => (.error ocrExhaustedMsg, [])
  | m :: rest, i =>
    match attemptSucceeds (env i) with
    | some s => (.ok ⟨s, m.id, m.name⟩, [m.id])
    | none =>
      let r := runOcrChain env rest (i + 1)
      (r.1, m.id :: r.2)

/-- Embeds `runOcrWithFallbackChain(imageBase64)`: run the static cascade from
its first provider. The environment stands for the behavior of the network on
each attempt for the fixed image payload. -/
def runOcrWithFallbackChain (env : Nat → AttemptOutcome) :
    Except String OcrSuccess × List String :=
  runOcrChain env OCR_MODEL_CHAIN 0

/-! ## Database rows and state -/

/-- Error object returned by the database client. -/
structure DbError where
  code : String
  message : String
deriving DecidableEq, Repr

/-- Row of `menu_scan`. -/
structure ScanRow where
  id : String
  user_id : String
  menu_raw_text : String
  scanned_at : String
  restaurant_name : String
  location : String
  ocr_method : String
  image_hash : String
  canonical_menu_id : String
deriving DecidableEq, Repr

/-- Row of `canonical_menus`. -/
structure CanonicalRow where
  id : String
  content_hash : String
  dish_count : Nat
  created_at : String
  first_scan_id : Option String
deriving DecidableEq, Repr

/-- Row of `menu_dishes` (the generated primary key is left implicit). -/
structure DishRow where
  canonical_menu_id : String
  dish_name : String
  description : String
  price : Option String
  category : String
  tags : Option (List String)
deriving DecidableEq, Repr

/-- Row of `user_profile`. -/
structure UserRow where
  id : String
  email : String
  created_at : String
deriving DecidableEq, Repr

/-- The relational state: the four tables touched by the pipeline. -/
structure DB where
  user_profile : List UserRow
  canonical_menus : List CanonicalRow
  menu_scan : List ScanRow
  menu_dishes : List DishRow
deriving DecidableEq, Repr

/-- Parsed dish of the structured menu data. -/
structure DishData where
  name : String
  description : Option String
  price : Option String
  dietary_tags : Option (List String)
deriving DecidableEq, Repr

/-- Parsed category of the structured menu data; `dishes` is `none` when the
key is absent. -/
structure CategoryData where
  name : String
  dishes : Option (List DishData)
deriving DecidableEq, Repr

/-- Restaurant header of the structured menu data. -/
structure RestaurantData where
  name : String
  location : String
deriving DecidableEq, Repr

/-- Structured menu data as consumed by the persistence step. -/
structure StructuredData where
  restaurant : RestaurantData
  categories : List CategoryData
deriving DecidableEq, Repr

/-- The `structuredResult` record passed to `saveToSupabase`. -/
structure StructuredResult where
  text : String
  modelId : String
  imageHash : String
  contentHash : String
  structuredData : StructuredData
deriving DecidableEq, Repr

/-- Per-call environment of one `saveToSupabase` run: the injectable error
outcome of every database call (transport failures, constraint violations),
the wall clock reading, and the two generated identifiers. A dish batch error
is indexed by the 0-based batch number. -/
structure SaveEnv where
  userScanQueryError : Option DbError
  canonicalQueryError : Option DbError
  userSelectError : Option DbError
  userInsertError : Option DbError
  canonicalInsertError : Option DbError
  scanInsertError : Option DbError
  firstScanUpdateError : Option DbError
  dishBatchError : Nat → Option DbError
  now : String
  scanId : String
  newCanonicalId : String

/-- Latest row by `scanned_at` (models order by scanned_at descending, limit 1). -/
def mostRecent (rows : List ScanRow) : Option ScanRow :=
  rows.foldl
    (fun acc r =>
      match acc with
      | none => some r
      | some a => if keyLe a.scanned_at r.scanned_at && a.scanned_at != r.scanned_at then some r else some a)
    none

/-- Embeds `checkForExistingUserScan(userId, imageHash)`: falsy hash short-circuits
to null; a query error (or exception) is logged and swallowed as null; otherwise
the most recent `menu_scan` row with this user id and image hash, if any. -/
def checkForExistingUserScan (err : Option DbError) (db : DB)
    (userId imageHash : String) : Option ScanRow :=
  if imageHash = "" then none
  else if err.isSome then none
  else mostRecent (db.menu_scan.filter fun r => r.user_id == userId && r.image_hash == imageHash)

/-- Embeds `checkForExistingCanonicalMenu(contentHash)`: falsy hash short-circuits
to null; every error outcome — the PGRST204 missing-column case, any other query
error, an exception — is swallowed as null; otherwise the first `canonical_menus`
row with this content hash, if any. -/
def checkForExistingCanonicalMenu (err : Option DbError) (db : DB)
    (contentHash : String) : Option CanonicalRow :=
  if contentHash = "" then none
  else if err.isSome then none
  else (db.canonical_menus.filter fun r => r.content_hash == contentHash).head?

/-- Embeds `ensureUserExists(userId)`: select the profile row (a PGRST116 error
means zero rows); any other select error raises; an absent row triggers an
insert of a minimal profile; an insert error raises. -/
def ensureUserExists (env : SaveEnv) (db : DB) (userId : String) : Except String DB :=
  let insertPath : Except String DB :=
    match env.userInsertError with
    | some e => .error ("User creation failed: " ++ e.message)
    | none =>
      .ok { db with user_profile :=
              db.user_profile ++ [{ id := userId, email := "test@example.com", created_at := env.now }] }
  match env.userSelectError with
  | some e =>
    if e.code = "PGRST116" then insertPath
    else .error ("User check failed: " ++ e.message)
  | none =>
    if db.user_profile.any (fun u => u.id == userId) then .ok db
    else insertPath

/-- Total dish count of the structured data:
`categories.reduce((sum, cat) => sum + (cat.dishes ? cat.dishes.length : 0), 0)`. -/
def dishTotal (sd : StructuredData) : Nat :=
  sd.categories.foldl
    (fun sum c => sum + (match c.dishes with | some ds => ds.length | none => 0)) 0

/-- Flatten all categories into dishes tagged with their category name
(the allDishes array). -/
def allDishesOf (sd : StructuredData) : List (DishData × String) :=
  sd.categories.foldl
    (fun acc c =>
      match c.dishes with
      | some ds => acc ++ ds.map (fun d => (d, c.name))
      | none => acc)
    []

/-- Build the `menu_dishes` insert payload of one dish. -/
def dishRowOf (canonicalId : String) (d : DishData × String) : DishRow :=
  { canonical_menu_id := canonicalId,
    dish_name := d.1.name,
    description := d.1.description.getD "",
    price := d.1.price,
    category := d.2,
    tags :=
      match d.1.dietary_tags with
      | some ts => if ts.length != 0 then some ts else none
      | none => none }

/-- The dish insert batch size. -/
def BATCH_SIZE : Nat := 10

/-- Embeds the dish batch loop: for each indexed batch, a batch error is
recorded (only logged in the source) and the loop continues; a successful batch
appends its rows and adds their number to `insertedDishCount`. -/
def processBatches (env : SaveEnv) :
    List (Nat × List DishRow) → Nat × DB → Nat × DB
  | [], acc => acc
  | b :: rest, acc =>
    match env.dishBatchError b.1 with
    | some _ => processBatches env rest acc
    | none =>
      processBatches env rest
        (acc.1 + b.2.length, { acc.2 with menu_dishes := acc.2.menu_dishes ++ b.2 })

/-- The `menu_scan` insert payload built by `saveToSupabase` (identical in the
reuse and novel branches except for the canonical menu id it links to). -/
def scanRowOf (env : SaveEnv) (sr : StructuredResult) (userId canonicalMenuId : String) :
    ScanRow :=
  { id := env.scanId, user_id := userId, menu_raw_text := sr.text, scanned_at := env.now,
    restaurant_name := sr.structuredData.restaurant.name,
    location := sr.structuredData.restaurant.location, ocr_method := sr.modelId,
    image_hash := sr.imageHash, canonical_menu_id := canonicalMenuId }

/-- The `canonical_menus` insert payload of the novel branch: content hash, the
attempted dish total, creation time; the generated id and the not-yet-backfilled
first_scan_id complete the row. -/
def canonicalRowNovel (env : SaveEnv) (sr : StructuredResult) : CanonicalRow :=
  { id := env.newCanonicalId, content_hash := sr.contentHash,
    dish_count := dishTotal sr.structuredData, created_at := env.now,
    first_scan_id := none }

/-- Result object of `saveToSupabase`. Fields that a given return path does not
mention in its object literal are `none`. -/
structure SaveResult where
  scanId : String
  method : String
  canonicalId : Option String := none
  existingCanonicalMenuFirstScanId : Option String := none
  dishCount : Option Nat := none
  newDishes : Option Bool := none
  existingScan : Option Bool := none
deriving DecidableEq, Repr

/-- Embeds `saveToSupabase(structuredResult, userId)` as a pure transition on
the relational state. The three return paths are: user duplicate by image hash
(return the prior scan id, no writes), canonical menu reuse (insert one scan
row), and new canonical menu (insert canonical row, scan row, best-effort
first_scan_id backfill, then the dish batches). -/
def saveToSupabase (env : SaveEnv) (db : DB) (structuredResult : StructuredResult)
    (userId : String) : Except String (SaveResult × DB) :=
  let imageHash := structuredResult.imageHash
  let contentHash := structuredResult.contentHash
  let sd := structuredResult.structuredData
  match checkForExistingUserScan env.userScanQueryError db userId imageHash with
  | some existingScan =>
    .ok ({ scanId := existingScan.id, method := "duplicate_image_hash",
           existingScan := some true }, db)
  | none =>
    match ensureUserExists env db userId with
    | .error e => .error e
    | .ok db1 =>
      let existingCanonicalMenu :=
        checkForExistingCanonicalMenu env.canonicalQueryError db1 contentHash
      let scanId := env.scanId
      match existingCanonicalMenu with
      | some cm =>
        match env.scanInsertError with
        | some e => .error ("Scan insert failed: " ++ e.message)
        | none =>
          let row := scanRowOf env structuredResult userId cm.id
          .ok ({ scanId := scanId, method := "canonical_menu_reuse",
                 canonicalId := some cm.id,
                 existingCanonicalMenuFirstScanId := none,
                 dishCount := some cm.dish_count, newDishes := some false },
               { db1 with menu_scan := db1.menu_scan ++ [row] })
      | none =>
        match env.canonicalInsertError with
        | some e => .error ("Canonical menu insert failed: " ++ e.message)
        | none =>
          let canonicalId := env.newCanonicalId
          let db2 :=
            { db1 with canonical_menus :=
                db1.canonical_menus ++ [canonicalRowNovel env structuredResult] }
          match env.scanInsertError with
          | some e => .error ("Scan insert failed: " ++ e.message)
          | none =>
            let row := scanRowOf env structuredResult userId canonicalId
            let db3 := { db2 with menu_scan := db2.menu_scan ++ [row] }
            let db4 :=
              match env.firstScanUpdateError with
              | some _ => db3
              | none =>
                { db3 with canonical_menus :=
                    db3.canonical_menus.map fun r =>
                      if r.id == canonicalId then { r with first_scan_id := some scanId } else r }
            let rows := (allDishesOf sd).map (dishRowOf canonicalId)
            let res := processBatches env ((chunked BATCH_SIZE rows).enum) (0, db4)
            .ok ({ scanId := scanId, method := "new_canonical_menu",
                   canonicalId := some canonicalId,
                   dishCount := some res.1, newDishes := some true }, res.2)

/-! ## Equivalence of structured menus up to key order and whitespace

The relation the content-hash stability claim quantifies over: two JSON values
are related when they agree structurally except that object fields may appear
in a different insertion order (keys staying unique, as JS objects guarantee),
strings under the name and category keys may differ in leading and trailing
whitespace, and strings under the description key may differ up to trimming
plus internal whitespace collapse. Array element order is significant. -/

mutual

inductive MenuEquiv : Option String → Json → Json → Prop where
  | null (k) : MenuEquiv k .null .null
  | bool (k b) : MenuEquiv k (.bool b) (.bool b)
  | num (k r) : MenuEquiv k (.num r) (.num r)
  | str (k s) : MenuEquiv k (.str s) (.str s)
  | strName (s t) : jsTrim s = jsTrim t → MenuEquiv (some "name") (.str s) (.str t)
  | strCategory (s t) : jsTrim s = jsTrim t →
      MenuEquiv (some "category") (.str s) (.str t)
  | strDescription (s t) : normDescription s = normDescription t →
      MenuEquiv (some "description") (.str s) (.str t)
  | arr (k xs ys) : ArrayEquiv xs ys → MenuEquiv k (.arr xs) (.arr ys)
  | obj (k l1 l2 l2') : (l1.map Prod.fst).Nodup → (l2.map Prod.fst).Nodup →
      l2.Perm l2' → FieldsEquiv l1 l2' → MenuEquiv k (.obj l1) (.obj l2)

inductive ArrayEquiv : List Json → List Json → Prop where
  | nil : ArrayEquiv [] []
  | cons (x y xs ys) : MenuEquiv none x y → ArrayEquiv xs ys →
      ArrayEquiv (x :: xs) (y :: ys)

inductive FieldsEquiv : List (String × Json) → List (String × Json) → Prop where
  | nil : FieldsEquiv [] []
  | cons (a b l1 l2) : a.1 = b.1 → MenuEquiv (some a.1) a.2 b.2 → FieldsEquiv l1 l2 →
      FieldsEquiv (a :: l1) (b :: l2)

end

/-- Normalization of a value in key context `k`: at top level and for array
elements the walker is entered directly, for object field values it is entered
through the key-dispatching branch. -/
def normalizeAt : Option String → Json → Json
  | none, j => normalizeTextValues j
  | some k, j => normEntry k j

/-- A small menu whose dish array lists soup before salad. -/
def menuSoupFirst : Json :=
  .obj [("restaurant", .obj [("name", .str "Cafe A"), ("location", .str "Toronto")]),
        ("categories", .arr [.obj
          [("name", .str "Mains"),
           ("dishes", .arr
             [.obj [("name", .str "Soup"), ("price", .num "5")],
              .obj [("name", .str "Salad"), ("price", .num "7")]])]])]

/-- The same menu with the two dishes transposed and nothing else changed. -/
def menuSaladFirst : Json :=
  .obj [("restaurant", .obj [("name", .str "Cafe A"), ("location", .str "Toronto")]),
        ("categories", .arr [.obj
          [("name", .str "Mains"),
           ("dishes", .arr
             [.obj [("name", .str "Salad"), ("price", .num "7")],
              .obj [("name", .str "Soup"), ("price", .num "5")]])]])]

/-- Concrete menu used to witness hash stability: keys in schema order, a
trailing space in the restaurant name, a leading space in the dish name, and a
double space inside the description. -/
def wKeyOrderA : Json :=
  .obj [("restaurant", .obj [("name", .str "Cafe A "), ("location", .str "T")]),
        ("categories", .arr [.obj
          [("name", .str "Mains"),
           ("dishes", .arr [.obj
             [("name", .str " Soup"), ("description", .str "hot  soup"),
              ("price", .num "5")]])]])]

/-- The same menu with every object's keys permuted and the whitespace noise
placed differently. -/
def wKeyOrderB : Json :=
  .obj [("categories", .arr [.obj
          [("dishes", .arr [.obj
             [("description", .str " hot soup"), ("name", .str "Soup "),
              ("price", .num "5")]]),
           ("name", .str "Mains")]]),
        ("restaurant", .obj [("location", .str "T"), ("name", .str "Cafe A")])]

/-! ## Concrete environments and states used by witnesses and counterexamples -/

/-- Attempt behavior used by the first-success-wins witness: attempt 0 times
out, attempt 1 gets an HTTP 500, attempt 2 returns long valid text. -/
def envC1 : Nat → AttemptOutcome := fun j =>
  if j = 0 then .timeout
  else if j = 1 then .httpError 500 "Internal Server Error"
  else .response (some "MENU Starters Soup 5 Salad 7 Mains Burger 12")

/-- Behavior in which every attempt times out. -/
def envAllTimeout : Nat → AttemptOutcome := fun _ => .timeout

/-- Behavior in which every attempt gets a non-success HTTP response. -/
def envAllHttp : Nat → AttemptOutcome := fun _ => .httpError 500 "Internal Server Error"

/-- Unique-constraint violation error as Postgres reports it. -/
def dupKeyError : DbError :=
  ⟨"23505", "duplicate key value violates unique constraint"⟩

/-- Transient network failure of a database call. -/
def netError : DbError := ⟨"ECONNRESET", "connection reset by peer"⟩

/-- Environment of a fault-free save call. -/
def envNoFaults : SaveEnv :=
  { userScanQueryError := none, canonicalQueryError := none, userSelectError := none,
    userInsertError := none, canonicalInsertError := none, scanInsertError := none,
    firstScanUpdateError := none, dishBatchError := fun _ => none,
    now := "2024-01-02T00:00:00.000Z", scanId := "scan-2", newCanonicalId := "canon-2" }

/-- Environment where the user_profile insert hits a unique-constraint conflict
(a concurrent call created the row between the select and the insert). -/
def envUserConflict : SaveEnv := { envNoFaults with userInsertError := some dupKeyError }

/-- Environment where the canonical_menus insert hits the content_hash
uniqueness constraint (a concurrent scan created the row first). -/
def envCanonConflict : SaveEnv :=
  { envNoFaults with canonicalInsertError := some dupKeyError }

/-- Environment where both dedup queries fail transiently. -/
def envQueryFaults : SaveEnv :=
  { envNoFaults with userScanQueryError := some netError,
                     canonicalQueryError := some netError }

/-- Environment where dish batch 1 (the second of three) fails and the other
batches succeed. -/
def envBatchFail : SaveEnv :=
  { envNoFaults with dishBatchError := fun i => if i = 1 then some netError else none }

/-- Structured menu with two dishes used by the persistence witnesses. -/
def sdSample : StructuredData :=
  { restaurant := ⟨"Soho House Toronto", "Toronto, Canada"⟩,
    categories := [⟨"Mains", some [⟨"Soup", some "hot soup", some "5", some ["v"]⟩,
                                   ⟨"Salad", none, some "7", none⟩]⟩] }

/-- Structured result wrapping `sdSample`. -/
def srSample : StructuredResult :=
  { text := "MENU Mains Soup 5 Salad 7", modelId := "openai/gpt-4o-mini",
    imageHash := "imghash-1", contentHash := "conthash-1", structuredData := sdSample }

/-- Structured menu with 25 dishes, producing three insert batches of
10, 10 and 5 rows. -/
def sd25 : StructuredData :=
  { restaurant := ⟨"Soho House Toronto", "Toronto, Canada"⟩,
    categories := [⟨"Mains", some (List.replicate 25 ⟨"D", none, none, none⟩)⟩] }

/-- Structured result wrapping `sd25`. -/
def sr25 : StructuredResult :=
  { text := "MENU with 25 dishes", modelId := "openai/gpt-4o-mini",
    imageHash := "imghash-25", contentHash := "conthash-25", structuredData := sd25 }

/-- Profile row of the test user. -/
def userRowA : UserRow := ⟨"userA", "test@example.com", "2024-01-01T00:00:00.000Z"⟩

/-- The prior scan of image imghash-1 by userA. -/
def scanPrior : ScanRow :=
  { id := "scan-prior", user_id := "userA", menu_raw_text := "MENU Mains Soup 5 Salad 7",
    scanned_at := "2024-01-01T00:00:00.000Z", restaurant_name := "Soho House Toronto",
    location := "Toronto, Canada", ocr_method := "openai/gpt-4o-mini",
    image_hash := "imghash-1", canonical_menu_id := "canon-1" }

/-- The canonical menu created by the prior scan. -/
def canonRow1 : CanonicalRow :=
  ⟨"canon-1", "conthash-1", 2, "2024-01-01T00:00:00.000Z", some "scan-prior"⟩

/-- Empty database. -/
def dbEmpty : DB := ⟨[], [], [], []⟩

/-- Database holding only the user profile. -/
def dbUserOnly : DB := ⟨[userRowA], [], [], []⟩

/-- Database holding the user profile and a canonical menu with its dishes but
no scan of imghash-1. -/
def dbUserCanon : DB :=
  ⟨[userRowA], [canonRow1], [],
   [⟨"canon-1", "Soup", "hot soup", some "5", "Mains", some ["v"]⟩,
    ⟨"canon-1", "Salad", "", some "7", "Mains", none⟩]⟩

/-- Database state after userA's first scan of imghash-1. -/
def dbWithPrior : DB :=
  ⟨[userRowA], [canonRow1], [scanPrior],
   [⟨"canon-1", "Soup", "hot soup", some "5", "Mains", some ["v"]⟩,
    ⟨"canon-1", "Salad", "", some "7", "Mains", none⟩]⟩

/-! # Theorems -/

/-- Sanity check of the SHA-256 embedding against the FIPS 180-4 test vector. -/
theorem calculateSHA256_test_vector :
    calculateSHA256 (utf8Bytes "abc") =
      "ba7816bf8f01cfea414140de5dae2223b00361a396177a9cb410ff61f20015ad" := by
  decide

/-- Sanity check of normalization plus stable stringification on a small menu:
keys are sorted, the name is trimmed, the description is collapsed. -/
theorem stableStringify_sample :
    stableStringify (normalizeTextValues (.obj
      [("restaurant", .obj [("name", .str " A "), ("location", .str "L")]),
       ("categories", .arr [.obj
         [("name", .str "C"),
          ("dishes", .arr [.obj
            [("name", .str "D"), ("description", .str "  x   y "), ("price", .num "12.5"),
             ("dietary_tags", .arr [.str "gf"])]])]])]))
    = "\x7b\"categories\":[\x7b\"dishes\":[\x7b\"description\":\"x y\",\"dietary_tags\":[\"gf\"],\"name\":\"D\",\"price\":12.5\x7d],\"name\":\"C\"\x7d],\"restaurant\":\x7b\"location\":\"L\",\"name\":\"A\"\x7d\x7d" := by
  decide

/-! ## Order facts about the key comparator -/

theorem charListLe_cons_iff {x y : Char} {as bs : List Char} :
    charListLe (x :: as) (y :: bs) = true ↔
      x.toNat < y.toNat ∨ (x.toNat = y.toNat ∧ charListLe as bs = true) := by
  simp only [charListLe]
  split_ifs with h1 h2
  · simp [h1]
  · simp; omega
  · have hxy : x.toNat = y.toNat := by omega
    simp [hxy]

theorem charListLe_total (a b : List Char) : charListLe a b = true ∨ charListLe b a = true := by
  induction a generalizing b with
  | nil => left; rfl
  | cons x as ih =>
    cases b with
    | nil => right; rfl
    | cons y bs =>
      rcases Nat.lt_trichotomy x.toNat y.toNat with h | h | h
      · left; rw [charListLe_cons_iff]; exact Or.inl h
      · rcases ih bs with h2 | h2
        · left; rw [charListLe_cons_iff]; exact Or.inr ⟨h, h2⟩
        · right; rw [charListLe_cons_iff]; exact Or.inr ⟨h.symm, h2⟩
      · right; rw [charListLe_cons_iff]; exact Or.inl h

theorem charListLe_trans {a b c : List Char} (hab : charListLe a b = true)
    (hbc : charListLe b c = true) : charListLe a c = true := by
  induction a generalizing b c with
  | nil => rfl
  | cons x as ih =>
    cases b with
    | nil => simp [charListLe] at hab
    | cons y bs =>
      cases c with
      | nil => simp [charListLe] at hbc
      | cons z cs =>
        rw [charListLe_cons_iff] at hab hbc ⊢
        rcases hab with h1 | ⟨h1, h1r⟩ <;> rcases hbc with h2 | ⟨h2, h2r⟩
        · exact Or.inl (h1.trans h2)
        · exact Or.inl (h2 ▸ h1)
        · exact Or.inl (h1 ▸ h2)
        · exact Or.inr ⟨h1.trans h2, ih h1r h2r⟩

theorem charListLe_antisymm {a b : List Char} (hab : charListLe a b = true)
    (hba : charListLe b a = true) : a = b := by
  induction a generalizing b with
  | nil =>
    cases b with
    | nil => rfl
    | cons y bs => simp [charListLe] at hba
  | cons x as ih =>
    cases b with
    | nil => simp [charListLe] at hab
    | cons y bs =>
      rw [charListLe_cons_iff] at hab hba
      have hxy : x.toNat = y.toNat := by omega
      have hx : x = y := Char.eq_of_val_eq (UInt32.ext hxy)
      have hrec : as = bs := by
        rcases hab with h | ⟨_, h⟩
        · omega
        · rcases hba with h2 | ⟨_, h2⟩
          · omega
          · exact ih h h2
      rw [hx, hrec]

theorem keyLe_total (a b : String) : keyLe a b = true ∨ keyLe b a = true :=
  charListLe_total a.data b.data

theorem keyLe_trans {a b c : String} (hab : keyLe a b = true) (hbc : keyLe b c = true) :
    keyLe a c = true :=
  charListLe_trans hab hbc

theorem keyLe_antisymm {a b : String} (hab : keyLe a b = true) (hba : keyLe b a = true) :
    a = b := by
  have h := charListLe_antisymm hab hba
  cases a; cases b; simp only at h; rw [h]

instance : IsTotal (String × String) pairLe :=
  ⟨fun a b => keyLe_total a.1 b.1⟩

instance : IsTrans (String × String) pairLe :=
  ⟨fun _ _ _ hab hbc => keyLe_trans hab hbc⟩

/-- Strict version of `pairLe`, used to pin sorted field lists uniquely. -/
def pairLt (a b : String × String) : Prop := pairLe a b ∧ a.1 ≠ b.1

instance : IsAntisymm (String × String) pairLt :=
  ⟨fun _ _ h1 h2 => absurd (keyLe_antisymm h1.1 h2.1) h1.2⟩

theorem sorted_pairLt_of_sorted_nodup {l : List (String × String)}
    (hs : List.Sorted pairLe l) (hnd : (l.map Prod.fst).Nodup) : List.Sorted pairLt l := by
  have hnd' : List.Pairwise (fun a b : String × String => a.1 ≠ b.1) l :=
    (List.pairwise_map).mp hnd
  exact (hs.and hnd').imp fun h => ⟨h.1, h.2⟩

/-- Two permuted field lists with the same (duplicate-free) key set sort to the
same list. -/
theorem sortPairs_eq_of_perm {l l' : List (String × String)} (hp : l.Perm l')
    (hnd : (l.map Prod.fst).Nodup) : sortPairs l = sortPairs l' := by
  have hperm : (sortPairs l).Perm (sortPairs l') :=
    ((List.perm_insertionSort pairLe l).trans hp).trans
      (List.perm_insertionSort pairLe l').symm
  have hnd1 : ((sortPairs l).map Prod.fst).Nodup :=
    ((List.perm_insertionSort pairLe l).map Prod.fst).nodup_iff.mpr hnd
  have hnd2 : ((sortPairs l').map Prod.fst).Nodup :=
    (hperm.map Prod.fst).nodup_iff.mp hnd1
  exact List.eq_of_perm_of_sorted hperm
    (sorted_pairLt_of_sorted_nodup (List.sorted_insertionSort pairLe l) hnd1)
    (sorted_pairLt_of_sorted_nodup (List.sorted_insertionSort pairLe l') hnd2)

/-! ## Stability of the normalized stable serialization -/

theorem normFields_eq_map (l : List (String × Json)) :
    normFields l = l.map fun kv => (kv.1, normEntry kv.1 kv.2) := by
  induction l with
  | nil => rfl
  | cons a rest ih =>
    obtain ⟨k, v⟩ := a
    simp [normFields, ih]

theorem stringifyFields_eq_map (l : List (String × Json)) :
    stringifyFields l = l.map fun kv => (kv.1, stableStringify kv.2) := by
  induction l with
  | nil => rfl
  | cons a rest ih =>
    obtain ⟨k, v⟩ := a
    simp [stringifyFields, ih]

theorem stringifyFields_normFields (l : List (String × Json)) :
    stringifyFields (normFields l) =
      l.map fun kv => (kv.1, stableStringify (normEntry kv.1 kv.2)) := by
  rw [normFields_eq_map, stringifyFields_eq_map, List.map_map]
  rfl

theorem map_fst_stringifyFields_normFields (l : List (String × Json)) :
    (stringifyFields (normFields l)).map Prod.fst = l.map Prod.fst := by
  rw [stringifyFields_normFields, List.map_map]
  rfl

theorem normalizeAt_obj (k : Option String) (l : List (String × Json)) :
    normalizeAt k (.obj l) = .obj (normFields l) := by
  cases k <;> rfl

theorem normalizeAt_arr (k : Option String) (xs : List Json) :
    normalizeAt k (.arr xs) = .arr (normItems xs) := by
  cases k <;> rfl

mutual

theorem menuEquiv_stringify : ∀ {k : Option String} {a b : Json}, MenuEquiv k a b →
    stableStringify (normalizeAt k a) = stableStringify (normalizeAt k b)
  | _, _, _, .null _ => rfl
  | _, _, _, .bool _ _ => rfl
  | _, _, _, .num _ _ => rfl
  | _, _, _, .str _ _ => rfl
  | _, _, _, .strName s t htr => by
    show stableStringify (normEntry "name" (.str s)) = stableStringify (normEntry "name" (.str t))
    simp only [normEntry]
    split_ifs with h
    · rw [htr]
    all_goals exact absurd (by decide) h
  | _, _, _, .strCategory s t htr => by
    show stableStringify (normEntry "category" (.str s))
        = stableStringify (normEntry "category" (.str t))
    simp only [normEntry]
    split_ifs with h
    · rw [htr]
    all_goals exact absurd (by decide) h
  | _, _, _, .strDescription s t htr => by
    show stableStringify (normEntry "description" (.str s))
        = stableStringify (normEntry "description" (.str t))
    simp only [normEntry]
    split_ifs with h1
    · exact absurd h1 (by decide)
    · rw [htr]
  | k, _, _, .arr _ xs ys hae => by
    rw [normalizeAt_arr, normalizeAt_arr]
    show "[" ++ String.intercalate "," (stringifyItems (normItems xs)) ++ "]"
        = "[" ++ String.intercalate "," (stringifyItems (normItems ys)) ++ "]"
    rw [arrayEquiv_stringify hae]
  | k, _, _, .obj _ l1 l2 l2' hnd1 hnd2 hperm hfe => by
    rw [normalizeAt_obj, normalizeAt_obj]
    show "\x7b" ++ String.intercalate ","
        ((sortPairs (stringifyFields (normFields l1))).map fun kv => jsonQuote kv.1 ++ ":" ++ kv.2) ++ "\x7d"
      = "\x7b" ++ String.intercalate ","
        ((sortPairs (stringifyFields (normFields l2))).map fun kv => jsonQuote kv.1 ++ ":" ++ kv.2) ++ "\x7d"
    have hserial : stringifyFields (normFields l1) = stringifyFields (normFields l2') :=
      fieldsEquiv_stringify hfe
    have hpermF : (stringifyFields (normFields l2)).Perm (stringifyFields (normFields l1)) := by
      rw [hserial, stringifyFields_normFields, stringifyFields_normFields]
      exact hperm.map _
    have hnodup : ((stringifyFields (normFields l2)).map Prod.fst).Nodup := by
      rw [map_fst_stringifyFields_normFields]
      exact hnd2
    rw [sortPairs_eq_of_perm hpermF.symm (by rw [map_fst_stringifyFields_normFields]; exact hnd1)]

theorem arrayEquiv_stringify : ∀ {xs ys : List Json}, ArrayEquiv xs ys →
    stringifyItems (normItems xs) = stringifyItems (normItems ys)
  | _, _, .nil => rfl
  | _, _, .cons x y xs ys hxy hrest => by
    show stableStringify (normalizeTextValues x) :: stringifyItems (normItems xs)
        = stableStringify (normalizeTextValues y) :: stringifyItems (normItems ys)
    have hx : stableStringify (normalizeAt none x) = stableStringify (normalizeAt none y) :=
      menuEquiv_stringify hxy
    rw [show normalizeAt none x = normalizeTextValues x from rfl,
        show normalizeAt none y = normalizeTextValues y from rfl] at hx
    rw [hx, arrayEquiv_stringify hrest]

theorem fieldsEquiv_stringify : ∀ {l1 l2 : List (String × Json)}, FieldsEquiv l1 l2 →
    stringifyFields (normFields l1) = stringifyFields (normFields l2)
  | _, _, .nil => rfl
  | _, _, .cons a b l1 l2 hk hv hrest => by
    obtain ⟨k1, v1⟩ := a
    obtain ⟨k2, v2⟩ := b
    simp only at hk
    subst hk
    show (k1, stableStringify (normEntry k1 v1)) :: stringifyFields (normFields l1)
        = (k1, stableStringify (normEntry k1 v2)) :: stringifyFields (normFields l2)
    have hv' : stableStringify (normalizeAt (some k1) v1)
        = stableStringify (normalizeAt (some k1) v2) := menuEquiv_stringify hv
    rw [show normalizeAt (some k1) v1 = normEntry k1 v1 from rfl,
        show normalizeAt (some k1) v2 = normEntry k1 v2 from rfl] at hv'
    rw [hv', fieldsEquiv_stringify hrest]

end

/-- C3: for every pair of StructuredMenu values that are structurally equal up
to object-key insertion order, surrounding whitespace in descriptions (trim
plus internal whitespace collapse), and leading/trailing whitespace in names
and categories, calculateContentHash produces the same hash; and for some pair
of menus that differ only in the order of their dish arrays,
calculateContentHash produces different hashes (array order is not normalized). -/
theorem C3_contentHash_stability :
    (∀ a b : Json, MenuEquiv none a b → calculateContentHash a = calculateContentHash b)
    ∧ calculateContentHash menuSoupFirst ≠ calculateContentHash menuSaladFirst := by
  constructor
  · intro a b h
    exact congrArg (fun str => calculateSHA256 (utf8Bytes str)) (menuEquiv_stringify h)
  · decide

/-- Witness for C3: the two concrete permuted-and-respaced menus are related
by the equivalence and hash identically. -/
theorem C3_contentHash_stability_witness :
    MenuEquiv none wKeyOrderA wKeyOrderB ∧
      calculateContentHash wKeyOrderA = calculateContentHash wKeyOrderB := by
  have hd : MenuEquiv (some "dishes")
      (.arr [.obj [("name", .str " Soup"), ("description", .str "hot  soup"),
                   ("price", .num "5")]])
      (.arr [.obj [("description", .str " hot soup"), ("name", .str "Soup "),
                   ("price", .num "5")]]) := by
    refine .arr _ _ _ (.cons _ _ _ _ ?_ .nil)
    refine .obj _ _ _
      [("name", .str "Soup "), ("description", .str " hot soup"), ("price", .num "5")]
      (by decide) (by decide) (List.Perm.swap _ _ _) ?_
    exact .cons _ _ _ _ rfl (.strName _ _ (by decide))
      (.cons _ _ _ _ rfl (.strDescription _ _ (by decide))
        (.cons _ _ _ _ rfl (.num _ _) .nil))
  have hc : MenuEquiv none
      (.obj [("name", .str "Mains"),
             ("dishes", .arr [.obj [("name", .str " Soup"),
               ("description", .str "hot  soup"), ("price", .num "5")]])])
      (.obj [("dishes", .arr [.obj [("description", .str " hot soup"),
               ("name", .str "Soup "), ("price", .num "5")]]),
             ("name", .str "Mains")]) := by
    refine .obj _ _ _
      [("name", .str "Mains"),
       ("dishes", .arr [.obj [("description", .str " hot soup"),
         ("name", .str "Soup "), ("price", .num "5")]])]
      (by decide) (by decide) (List.Perm.swap _ _ _) ?_
    exact .cons _ _ _ _ rfl (.str _ _) (.cons _ _ _ _ rfl hd .nil)
  have hr : MenuEquiv (some "restaurant")
      (.obj [("name", .str "Cafe A "), ("location", .str "T")])
      (.obj [("location", .str "T"), ("name", .str "Cafe A")]) := by
    refine .obj _ _ _ [("name", .str "Cafe A"), ("location", .str "T")]
      (by decide) (by decide) (List.Perm.swap _ _ _) ?_
    exact .cons _ _ _ _ rfl (.strName _ _ (by decide))
      (.cons _ _ _ _ rfl (.str _ _) .nil)
  have hequiv : MenuEquiv none wKeyOrderA wKeyOrderB := by
    refine .obj _ _ _
      [("restaurant", .obj [("location", .str "T"), ("name", .str "Cafe A")]),
       ("categories", .arr [.obj
         [("dishes", .arr [.obj [("description", .str " hot soup"),
            ("name", .str "Soup "), ("price", .num "5")]]),
          ("name", .str "Mains")]])]
      (by decide) (by decide) (List.Perm.swap _ _ _) ?_
    exact .cons _ _ _ _ rfl hr
      (.cons _ _ _ _ rfl (.arr _ _ _ (.cons _ _ _ _ hc .nil)) .nil)
  exact ⟨hequiv, C3_contentHash_stability.1 _ _ hequiv⟩

/-! ## OCR fallback chain claims -/

/-- C1: for every ordered cascade of N extraction providers where providers
1..k-1 each fail (timeout, non-success response, or output shorter than 20
characters after trimming) and provider k returns text of at least 20 trimmed
characters, the chain returns that text tagged with provider k's identity, and
no provider k+1..N is ever invoked (first-success-wins). -/
theorem C1_first_success_wins (models : List OcrModelEntry) (env : Nat → AttemptOutcome)
    (i k : Nat) (s : String) (m : OcrModelEntry)
    (hfail : ∀ j, j < k → attemptSucceeds (env (i + j)) = none)
    (hget : models[k]? = some m)
    (hsucc : attemptSucceeds (env (i + k)) = some s) :
    runOcrChain env models i =
      (.ok ⟨s, m.id, m.name⟩, (models.take (k + 1)).map fun mm => mm.id) := by
  induction k generalizing models i with
  | zero =>
    cases models with
    | nil => simp at hget
    | cons m0 rest =>
      simp only [List.getElem?_cons_zero, Option.some.injEq] at hget
      subst hget
      have hsucc' : attemptSucceeds (env i) = some s := hsucc
      simp only [runOcrChain, hsucc', List.take, List.map]
  | succ k ih =>
    cases models with
    | nil => simp at hget
    | cons m0 rest =>
      have h0 : attemptSucceeds (env i) = none := hfail 0 (Nat.succ_pos k)
      have hshift : ∀ j, j < k → attemptSucceeds (env (i + 1 + j)) = none := by
        intro j hj
        have := hfail (j + 1) (by omega)
        rwa [show i + (j + 1) = i + 1 + j by omega] at this
      have hget' : rest[k]? = some m := by simpa using hget
      have hsucc' : attemptSucceeds (env (i + 1 + k)) = some s := by
        rwa [show i + 1 + k = i + (k + 1) by omega]
      have ihres := ih rest (i + 1) hshift hget' hsucc'
      simp only [runOcrChain, h0, ihres, List.take, List.map]

/-- Witness for C1: on the production cascade, with attempt 0 timing out,
attempt 1 failing with HTTP 500 and attempt 2 yielding 44 characters of text,
the chain returns the Gemini-tagged text after invoking exactly the first
three providers. -/
theorem C1_first_success_wins_witness :
    (∀ j, j < 2 → attemptSucceeds (envC1 (0 + j)) = none) ∧
    OCR_MODEL_CHAIN[2]? = some ⟨"google/gemini-flash-1.5", "Gemini Flash 1.5"⟩ ∧
    attemptSucceeds (envC1 (0 + 2)) =
      some "MENU Starters Soup 5 Salad 7 Mains Burger 12" ∧
    runOcrChain envC1 OCR_MODEL_CHAIN 0 =
      (.ok ⟨"MENU Starters Soup 5 Salad 7 Mains Burger 12",
            "google/gemini-flash-1.5", "Gemini Flash 1.5"⟩,
       ["meta-llama/llama-3.2-11b-vision-instruct:free",
        "qwen/qwen-2.5-vl-7b-instruct:free", "google/gemini-flash-1.5"]) := by
  have hfail : ∀ j, j < 2 → attemptSucceeds (envC1 (0 + j)) = none := by
    intro j hj
    interval_cases j <;> decide
  refine ⟨hfail, by decide, by decide, ?_⟩
  have := C1_first_success_wins OCR_MODEL_CHAIN envC1 0 2
    "MENU Starters Soup 5 Salad 7 Mains Burger 12"
    ⟨"google/gemini-flash-1.5", "Gemini Flash 1.5"⟩ hfail (by decide) (by decide)
  rw [this]
  rfl

/-- Helper for C8: when every attempt of a tail of the cascade fails, the loop
falls through to the fixed thrown error and every provider is invoked. -/
theorem runOcrChain_all_fail (models : List OcrModelEntry) (env : Nat → AttemptOutcome)
    (i : Nat) (hfail : ∀ j, j < models.length → attemptSucceeds (env (i + j)) = none) :
    runOcrChain env models i = (.error ocrExhaustedMsg, models.map fun m => m.id) := by
  induction models generalizing i with
  | nil => rfl
  | cons m0 rest ih =>
    have h0 : attemptSucceeds (env i) = none := hfail 0 (by simp)
    have hshift : ∀ j, j < rest.length → attemptSucceeds (env (i + 1 + j)) = none := by
      intro j hj
      have := hfail (j + 1) (by simp; omega)
      rwa [show i + (j + 1) = i + 1 + j by omega] at this
    simp only [runOcrChain, h0, ih (i + 1) hshift, List.map]

/-- C8 counterexample: two all-fail behaviors with different ordered
sub-failure lists (all timeouts versus all provider errors) produce the very
same error value, the fixed message — so the raised error cannot carry the
ordered list of per-provider sub-failures. -/
theorem C8_error_carries_no_subfailures :
    (runOcrWithFallbackChain envAllTimeout).1 = .error ocrExhaustedMsg
    ∧ (runOcrWithFallbackChain envAllHttp).1 = .error ocrExhaustedMsg
    ∧ subFailureOf (envAllTimeout 0) = some .timeoutFailure
    ∧ subFailureOf (envAllHttp 0) = some .providerError :=
  ⟨rfl, rfl, rfl, rfl⟩

/-- C8 amended: when all providers fail, runOcrWithFallbackChain fails after
invoking every provider, with the fixed error message thrown at the end of the
cascade; the per-provider sub-failures are only logged, not attached to the
error. -/
theorem C8_amended_exhausted_fixed_error (env : Nat → AttemptOutcome)
    (hfail : ∀ j, j < OCR_MODEL_CHAIN.length → attemptSucceeds (env j) = none) :
    runOcrWithFallbackChain env =
      (.error ocrExhaustedMsg, OCR_MODEL_CHAIN.map fun m => m.id) :=
  runOcrChain_all_fail OCR_MODEL_CHAIN env 0
    (fun j hj => by rw [Nat.zero_add]; exact hfail j hj)

/-- Witness for the amended C8 at the all-timeout behavior. -/
theorem C8_amended_exhausted_fixed_error_witness :
    (∀ j, j < OCR_MODEL_CHAIN.length → attemptSucceeds (envAllTimeout j) = none) ∧
    runOcrWithFallbackChain envAllTimeout =
      (.error ocrExhaustedMsg, OCR_MODEL_CHAIN.map fun m => m.id) := by
  have hfail : ∀ j, j < OCR_MODEL_CHAIN.length → attemptSucceeds (envAllTimeout j) = none :=
    fun j hj => rfl
  exact ⟨hfail, C8_amended_exhausted_fixed_error envAllTimeout hfail⟩

/-! ## Persistence helper lemmas -/

theorem ensureUserExists_tables {env : SaveEnv} {db db1 : DB} {userId : String}
    (h : ensureUserExists env db userId = .ok db1) :
    db1.canonical_menus = db.canonical_menus ∧ db1.menu_scan = db.menu_scan ∧
      db1.menu_dishes = db.menu_dishes := by
  unfold ensureUserExists at h
  rcases henv : env.userSelectError with _ | e <;>
    rcases hins : env.userInsertError with _ | e2 <;>
      simp only [henv, hins] at h <;>
      split_ifs at h <;>
      first
        | (injection h with h; subst h; exact ⟨rfl, rfl, rfl⟩)
        | simp at h

theorem mostRecent_mem {rows : List ScanRow} {r : ScanRow} (h : mostRecent rows = some r) :
    r ∈ rows := by
  unfold mostRecent at h
  suffices haux : ∀ (l : List ScanRow) (acc : Option ScanRow),
      l.foldl
        (fun acc r =>
          match acc with
          | none => some r
          | some a => if keyLe a.scanned_at r.scanned_at && a.scanned_at != r.scanned_at
                      then some r else some a)
        acc = some r → r ∈ l ∨ acc = some r by
    rcases haux rows none h with hm | hm
    · exact hm
    · simp at hm
  intro l
  induction l with
  | nil => intro acc h; exact Or.inr h
  | cons x xs ih =>
    intro acc h
    rcases acc with _ | a
    · rcases ih (some x) h with hm | hm
      · exact Or.inl (List.mem_cons_of_mem x hm)
      · injection hm with hm
        subst hm
        exact Or.inl (List.mem_cons_self _ _)
    · rcases ih _ h with hm | hm
      · exact Or.inl (List.mem_cons_of_mem x hm)
      · have hm' : (if (keyLe a.scanned_at x.scanned_at && a.scanned_at != x.scanned_at) = true
            then some x else some a) = some r := hm
        split_ifs at hm' <;> injection hm' with hm'
        · subst hm'
          exact Or.inl (List.mem_cons_self _ _)
        · subst hm'
          exact Or.inr rfl

theorem checkForExistingUserScan_found {err : Option DbError} {db : DB}
    {userId imageHash : String} {r : ScanRow}
    (h : checkForExistingUserScan err db userId imageHash = some r) :
    r ∈ db.menu_scan ∧ r.user_id = userId ∧ r.image_hash = imageHash := by
  unfold checkForExistingUserScan at h
  split_ifs at h
  have hm := mostRecent_mem h
  rw [List.mem_filter] at hm
  refine ⟨hm.1, ?_, ?_⟩
  · have := hm.2
    simp only [Bool.and_eq_true, beq_iff_eq] at this
    exact this.1
  · have := hm.2
    simp only [Bool.and_eq_true, beq_iff_eq] at this
    exact this.2

theorem checkForExistingCanonicalMenu_found {err : Option DbError} {db : DB}
    {contentHash : String} {cm : CanonicalRow}
    (h : checkForExistingCanonicalMenu err db contentHash = some cm) :
    cm ∈ db.canonical_menus ∧ cm.content_hash = contentHash := by
  unfold checkForExistingCanonicalMenu at h
  split_ifs at h
  have hm : cm ∈ db.canonical_menus.filter fun r => r.content_hash == contentHash := by
    rcases hl : db.canonical_menus.filter fun r => r.content_hash == contentHash with _ | ⟨x, xs⟩
    · rw [hl] at h
      simp at h
    · rw [hl] at h
      injection h with h
      subst h
      rw [hl]
      exact List.mem_cons_self _ _
  rw [List.mem_filter] at hm
  refine ⟨hm.1, ?_⟩
  have := hm.2
  simpa using this

theorem processBatches_spec (env : SaveEnv) (bs : List (Nat × List DishRow)) :
    ∀ (n : Nat) (db : DB),
      ∃ added : List DishRow,
        processBatches env bs (n, db) =
          (n + added.length, { db with menu_dishes := db.menu_dishes ++ added }) ∧
        ∀ b ∈ bs, env.dishBatchError b.1 = none → ∀ r ∈ b.2, r ∈ added := by
  induction bs with
  | nil =>
    intro n db
    refine ⟨[], by simp [processBatches], by simp⟩
  | cons b rest ih =>
    intro n db
    rcases herr : env.dishBatchError b.1 with _ | e
    · obtain ⟨added', hrun, hmem⟩ := ih (n + b.2.length)
        { db with menu_dishes := db.menu_dishes ++ b.2 }
      refine ⟨b.2 ++ added', ?_, ?_⟩
      · simp only [processBatches, herr]
        rw [hrun, Prod.ext_iff]
        refine ⟨?_, ?_⟩
        · simp only [List.length_append]
          omega
        · simp [List.append_assoc]
      · intro bb hbb hbbne r hr
        rcases List.mem_cons.mp hbb with hbb | hbb
        · subst hbb
          exact List.mem_append_left _ hr
        · exact List.mem_append_right _ (hmem bb hbb hbbne r hr)
    · obtain ⟨added', hrun, hmem⟩ := ih n db
      refine ⟨added', ?_, ?_⟩
      · simp only [processBatches, herr]
        exact hrun
      · intro bb hbb hbbne r hr
        rcases List.mem_cons.mp hbb with hbb | hbb
        · subst hbb
          rw [herr] at hbbne
          simp at hbbne
        · exact hmem bb hbb hbbne r hr

/-- Full characterization of the Novel path of `saveToSupabase`: the canonical
row is inserted with the attempted dish total, one scan row is inserted, and
the dish batches commit independently, the result reporting the actually
inserted count. -/
theorem saveToSupabase_novel (env : SaveEnv) (db : DB) (sr : StructuredResult)
    (userId : String) (db1 : DB)
    (hnodup : checkForExistingUserScan env.userScanQueryError db userId sr.imageHash = none)
    (huser : ensureUserExists env db userId = .ok db1)
    (hcm : checkForExistingCanonicalMenu env.canonicalQueryError db1 sr.contentHash = none)
    (hci : env.canonicalInsertError = none)
    (hsi : env.scanInsertError = none) :
    ∃ (added : List DishRow) (db2 : DB),
      saveToSupabase env db sr userId =
        .ok ({ scanId := env.scanId, method := "new_canonical_menu",
               canonicalId := some env.newCanonicalId,
               dishCount := some added.length, newDishes := some true }, db2)
      ∧ db2.menu_dishes = db1.menu_dishes ++ added
      ∧ (∀ b ∈ (chunked BATCH_SIZE ((allDishesOf sr.structuredData).map
            (dishRowOf env.newCanonicalId))).enum,
          env.dishBatchError b.1 = none → ∀ r ∈ b.2, r ∈ added)
      ∧ (∃ cRow ∈ db2.canonical_menus, cRow.id = env.newCanonicalId ∧
           cRow.dish_count = dishTotal sr.structuredData ∧
           cRow.content_hash = sr.contentHash)
      ∧ (∃ srow : ScanRow, db2.menu_scan = db1.menu_scan ++ [srow] ∧
           srow.user_id = userId ∧ srow.image_hash = sr.imageHash ∧
           srow.canonical_menu_id = env.newCanonicalId ∧ srow.id = env.scanId) := by
  rcases hfs : env.firstScanUpdateError with _ | e
  · obtain ⟨added, hrun, hmem⟩ := processBatches_spec env
      ((chunked BATCH_SIZE ((allDishesOf sr.structuredData).map
        (dishRowOf env.newCanonicalId))).enum) 0
      { db1 with
        canonical_menus := (db1.canonical_menus ++ [canonicalRowNovel env sr]).map fun r =>
          if r.id == env.newCanonicalId then { r with first_scan_id := some env.scanId } else r,
        menu_scan := db1.menu_scan ++ [scanRowOf env sr userId env.newCanonicalId] }
    refine ⟨added,
      { db1 with
        canonical_menus := (db1.canonical_menus ++ [canonicalRowNovel env sr]).map fun r =>
          if r.id == env.newCanonicalId then { r with first_scan_id := some env.scanId } else r,
        menu_scan := db1.menu_scan ++ [scanRowOf env sr userId env.newCanonicalId],
        menu_dishes := db1.menu_dishes ++ added },
      ?_, by simp, hmem, ?_, ?_⟩
    · simp only [saveToSupabase, hnodup, huser, hcm, hci, hsi, hfs]
      rw [hrun]
      simp
    · refine ⟨{ canonicalRowNovel env sr with first_scan_id := some env.scanId },
        ?_, rfl, rfl, rfl⟩
      simp [canonicalRowNovel]
    · exact ⟨scanRowOf env sr userId env.newCanonicalId, by simp, rfl, rfl, rfl, rfl⟩
  · obtain ⟨added, hrun, hmem⟩ := processBatches_spec env
      ((chunked BATCH_SIZE ((allDishesOf sr.structuredData).map
        (dishRowOf env.newCanonicalId))).enum) 0
      { db1 with
        canonical_menus := db1.canonical_menus ++ [canonicalRowNovel env sr],
        menu_scan := db1.menu_scan ++ [scanRowOf env sr userId env.newCanonicalId] }
    refine ⟨added,
      { db1 with
        canonical_menus := db1.canonical_menus ++ [canonicalRowNovel env sr],
        menu_scan := db1.menu_scan ++ [scanRowOf env sr userId env.newCanonicalId],
        menu_dishes := db1.menu_dishes ++ added },
      ?_, by simp, hmem, ?_, ?_⟩
    · simp only [saveToSupabase, hnodup, huser, hcm, hci, hsi, hfs]
      rw [hrun]
      simp
    · exact ⟨canonicalRowNovel env sr, by simp, rfl, rfl, rfl⟩
    · exact ⟨scanRowOf env sr userId env.newCanonicalId, by simp, rfl, rfl, rfl, rfl⟩

/-! ## Persistence claims -/

/-- C2: when a prior ScanRecord with the same (user_id, image_hash) exists,
saveToSupabase returns that prior scan's id with method duplicate_image_hash
and performs no database writes at all: the state is returned unchanged. -/
theorem C2_duplicate_no_writes (env : SaveEnv) (db : DB) (sr : StructuredResult)
    (userId : String) (prior : ScanRow)
    (hfound : checkForExistingUserScan env.userScanQueryError db userId sr.imageHash
      = some prior) :
    prior ∈ db.menu_scan ∧ prior.user_id = userId ∧ prior.image_hash = sr.imageHash ∧
    saveToSupabase env db sr userId =
      .ok ({ scanId := prior.id, method := "duplicate_image_hash",
             existingScan := some true }, db) := by
  obtain ⟨hmem, huid, hhash⟩ := checkForExistingUserScan_found hfound
  refine ⟨hmem, huid, hhash, ?_⟩
  simp only [saveToSupabase, hfound]

/-- C4: on the CanonicalMatch path (no user-image duplicate, an existing
canonical row with the same content hash), saveToSupabase inserts exactly one
new menu_scan row linked to the existing canonical id, touches no menu_dishes
or canonical_menus rows, and returns canonical_menu_reuse with
newDishes = false and the existing row's dish_count. -/
theorem C4_canonical_reuse (env : SaveEnv) (db : DB) (sr : StructuredResult)
    (userId : String) (db1 : DB) (cm : CanonicalRow)
    (hnodup : checkForExistingUserScan env.userScanQueryError db userId sr.imageHash = none)
    (huser : ensureUserExists env db userId = .ok db1)
    (hcm : checkForExistingCanonicalMenu env.canonicalQueryError db1 sr.contentHash = some cm)
    (hsi : env.scanInsertError = none) :
    cm ∈ db.canonical_menus ∧ cm.content_hash = sr.contentHash ∧
    ∃ (row : ScanRow) (db2 : DB),
      saveToSupabase env db sr userId =
        .ok ({ scanId := env.scanId, method := "canonical_menu_reuse",
               canonicalId := some cm.id, dishCount := some cm.dish_count,
               newDishes := some false }, db2)
      ∧ row.canonical_menu_id = cm.id
      ∧ db2.menu_scan = db.menu_scan ++ [row]
      ∧ db2.menu_dishes = db.menu_dishes
      ∧ db2.canonical_menus = db.canonical_menus := by
  obtain ⟨hcanon, hscan, hdish⟩ := ensureUserExists_tables huser
  obtain ⟨hcmMem, hcmHash⟩ := checkForExistingCanonicalMenu_found hcm
  rw [hcanon] at hcmMem
  refine ⟨hcmMem, hcmHash, ?_⟩
  refine ⟨scanRowOf env sr userId cm.id,
         { db1 with menu_scan := db1.menu_scan ++ [scanRowOf env sr userId cm.id] },
         ?_, rfl, ?_, ?_, ?_⟩
  · simp only [saveToSupabase, hnodup, huser, hcm, hsi]
  · simp [hscan]
  · simp [hdish]
  · simp [hcanon]

/-- Witness for C2: userA rescans imghash-1; the prior scan id is returned and
the state is untouched. -/
theorem C2_duplicate_no_writes_witness :
    checkForExistingUserScan envNoFaults.userScanQueryError dbWithPrior "userA"
        srSample.imageHash = some scanPrior
    ∧ (scanPrior ∈ dbWithPrior.menu_scan ∧ scanPrior.user_id = "userA"
       ∧ scanPrior.image_hash = srSample.imageHash
       ∧ saveToSupabase envNoFaults dbWithPrior srSample "userA" =
           .ok ({ scanId := scanPrior.id, method := "duplicate_image_hash",
                  existingScan := some true }, dbWithPrior)) :=
  ⟨rfl, C2_duplicate_no_writes envNoFaults dbWithPrior srSample "userA" scanPrior rfl⟩

/-- Witness for C4: a different image of content conthash-1 is scanned while
canon-1 already holds that content; one scan row is added, nothing else. -/
theorem C4_canonical_reuse_witness :
    checkForExistingUserScan envNoFaults.userScanQueryError dbUserCanon "userA"
        srSample.imageHash = none
    ∧ ensureUserExists envNoFaults dbUserCanon "userA" = .ok dbUserCanon
    ∧ checkForExistingCanonicalMenu envNoFaults.canonicalQueryError dbUserCanon
        srSample.contentHash = some canonRow1
    ∧ envNoFaults.scanInsertError = none
    ∧ (canonRow1 ∈ dbUserCanon.canonical_menus
       ∧ canonRow1.content_hash = srSample.contentHash
       ∧ ∃ (row : ScanRow) (db2 : DB),
           saveToSupabase envNoFaults dbUserCanon srSample "userA" =
             .ok ({ scanId := envNoFaults.scanId, method := "canonical_menu_reuse",
                    canonicalId := some canonRow1.id,
                    dishCount := some canonRow1.dish_count,
                    newDishes := some false }, db2)
           ∧ row.canonical_menu_id = canonRow1.id
           ∧ db2.menu_scan = dbUserCanon.menu_scan ++ [row]
           ∧ db2.menu_dishes = dbUserCanon.menu_dishes
           ∧ db2.canonical_menus = dbUserCanon.canonical_menus) :=
  ⟨rfl, rfl, rfl, rfl,
   C4_canonical_reuse envNoFaults dbUserCanon srSample "userA" dbUserCanon canonRow1
     rfl rfl rfl rfl⟩

/-- C5: on the Novel path, failed dish batches do not abort the pipeline:
remaining batches are still committed, the returned dishCount equals the
number of dish rows actually inserted, and the canonical_menus row keeps the
attempted total as its dish_count. -/
theorem C5_partial_batch_failure (env : SaveEnv) (db : DB) (sr : StructuredResult)
    (userId : String) (db1 : DB)
    (hnodup : checkForExistingUserScan env.userScanQueryError db userId sr.imageHash = none)
    (huser : ensureUserExists env db userId = .ok db1)
    (hcm : checkForExistingCanonicalMenu env.canonicalQueryError db1 sr.contentHash = none)
    (hci : env.canonicalInsertError = none)
    (hsi : env.scanInsertError = none) :
    ∃ (n : Nat) (db2 : DB),
      saveToSupabase env db sr userId =
        .ok ({ scanId := env.scanId, method := "new_canonical_menu",
               canonicalId := some env.newCanonicalId, dishCount := some n,
               newDishes := some true }, db2)
      ∧ db2.menu_dishes.length = db.menu_dishes.length + n
      ∧ (∃ cRow ∈ db2.canonical_menus, cRow.id = env.newCanonicalId ∧
           cRow.dish_count = dishTotal sr.structuredData)
      ∧ (∀ b ∈ (chunked BATCH_SIZE ((allDishesOf sr.structuredData).map
            (dishRowOf env.newCanonicalId))).enum,
          env.dishBatchError b.1 = none → ∀ r ∈ b.2, r ∈ db2.menu_dishes) := by
  obtain ⟨added, db2, hsave, hdish, hmem, ⟨cRow, hcMem, hcId, hcCount, _⟩, _⟩ :=
    saveToSupabase_novel env db sr userId db1 hnodup huser hcm hci hsi
  obtain ⟨_, _, hdish1⟩ := ensureUserExists_tables huser
  refine ⟨added.length, db2, hsave, ?_, ⟨cRow, hcMem, hcId, hcCount⟩, ?_⟩
  · rw [hdish, hdish1]
    simp
  · intro b hb hbe r hr
    rw [hdish]
    exact List.mem_append_right _ (hmem b hb hbe r hr)

/-- Witness for C5: three batches of 10, 10 and 5 dishes, batch 1 failing:
the call succeeds with dishCount 15 while the canonical row stores 25. -/
theorem C5_partial_batch_failure_witness :
    checkForExistingUserScan envBatchFail.userScanQueryError dbUserOnly "userA"
        sr25.imageHash = none
    ∧ ensureUserExists envBatchFail dbUserOnly "userA" = .ok dbUserOnly
    ∧ checkForExistingCanonicalMenu envBatchFail.canonicalQueryError dbUserOnly
        sr25.contentHash = none
    ∧ envBatchFail.canonicalInsertError = none
    ∧ envBatchFail.scanInsertError = none
    ∧ (∃ (n : Nat) (db2 : DB),
        saveToSupabase envBatchFail dbUserOnly sr25 "userA" =
          .ok ({ scanId := envBatchFail.scanId, method := "new_canonical_menu",
                 canonicalId := some envBatchFail.newCanonicalId, dishCount := some n,
                 newDishes := some true }, db2)
        ∧ db2.menu_dishes.length = dbUserOnly.menu_dishes.length + n
        ∧ (∃ cRow ∈ db2.canonical_menus, cRow.id = envBatchFail.newCanonicalId ∧
             cRow.dish_count = dishTotal sr25.structuredData)
        ∧ (∀ b ∈ (chunked BATCH_SIZE ((allDishesOf sr25.structuredData).map
              (dishRowOf envBatchFail.newCanonicalId))).enum,
            envBatchFail.dishBatchError b.1 = none → ∀ r ∈ b.2, r ∈ db2.menu_dishes))
    ∧ dishTotal sr25.structuredData = 25
    ∧ (∃ db2, saveToSupabase envBatchFail dbUserOnly sr25 "userA" =
        .ok ({ scanId := "scan-2", method := "new_canonical_menu",
               canonicalId := some "canon-2", dishCount := some 15,
               newDishes := some true }, db2)) :=
  ⟨rfl, rfl, rfl, rfl, rfl,
   C5_partial_batch_failure envBatchFail dbUserOnly sr25 "userA" dbUserOnly
     rfl rfl rfl rfl rfl,
   rfl, ⟨_, rfl⟩⟩

/-- C6 counterexample: with no matching canonical row at check time and a
uniqueness conflict injected on the canonical_menus insert (the concurrent
creation scenario), saveToSupabase surfaces a hard failure instead of
re-reading and proceeding as a CanonicalMatch. -/
theorem C6_conflict_is_hard_failure :
    saveToSupabase envCanonConflict dbUserOnly srSample "userA" =
      .error "Canonical menu insert failed: duplicate key value violates unique constraint" :=
  rfl

/-- C6 amended: a canonical_menus insert error, a uniqueness conflict on
content_hash included, aborts the call with the corresponding error message;
no re-read takes place. -/
theorem C6_amended_insert_error_aborts (env : SaveEnv) (db : DB) (sr : StructuredResult)
    (userId : String) (db1 : DB) (e : DbError)
    (hnodup : checkForExistingUserScan env.userScanQueryError db userId sr.imageHash = none)
    (huser : ensureUserExists env db userId = .ok db1)
    (hcm : checkForExistingCanonicalMenu env.canonicalQueryError db1 sr.contentHash = none)
    (hci : env.canonicalInsertError = some e) :
    saveToSupabase env db sr userId =
      .error ("Canonical menu insert failed: " ++ e.message) := by
  simp only [saveToSupabase, hnodup, huser, hcm, hci]

/-- Witness for the amended C6 at the concrete conflict scenario. -/
theorem C6_amended_insert_error_aborts_witness :
    checkForExistingUserScan envCanonConflict.userScanQueryError dbUserOnly "userA"
        srSample.imageHash = none
    ∧ ensureUserExists envCanonConflict dbUserOnly "userA" = .ok dbUserOnly
    ∧ checkForExistingCanonicalMenu envCanonConflict.canonicalQueryError dbUserOnly
        srSample.contentHash = none
    ∧ envCanonConflict.canonicalInsertError = some dupKeyError
    ∧ saveToSupabase envCanonConflict dbUserOnly srSample "userA" =
        .error ("Canonical menu insert failed: " ++ dupKeyError.message) :=
  ⟨rfl, rfl, rfl, rfl,
   C6_amended_insert_error_aborts envCanonConflict dbUserOnly srSample "userA" dbUserOnly
     dupKeyError rfl rfl rfl rfl⟩

/-- C7 counterexample: for a fresh user id, a unique-constraint conflict on the
user_profile insert (the concurrent-creation race) is surfaced as an error by
ensureUserExists, not treated as already exists. -/
theorem C7_conflict_surfaced :
    ensureUserExists envUserConflict dbEmpty "userA" =
      .error "User creation failed: duplicate key value violates unique constraint" :=
  rfl

/-- C7 amended: an insert error, a unique-constraint conflict included, is
surfaced as a User creation failed error; idempotence holds only sequentially:
a call that finds the profile row already present performs no insert and
succeeds with the state unchanged. -/
theorem C7_amended_conflict_error_sequential_idempotence :
    (∀ (env : SaveEnv) (db : DB) (userId : String) (e : DbError),
        env.userSelectError = none →
        (db.user_profile.any fun u => u.id == userId) = false →
        env.userInsertError = some e →
        ensureUserExists env db userId = .error ("User creation failed: " ++ e.message))
    ∧ (∀ (env : SaveEnv) (db : DB) (userId : String),
        env.userSelectError = none →
        (db.user_profile.any fun u => u.id == userId) = true →
        ensureUserExists env db userId = .ok db) := by
  constructor
  · intro env db userId e hsel hany hins
    simp only [ensureUserExists, hsel, hany, hins]
    simp
  · intro env db userId hsel hany
    simp only [ensureUserExists, hsel, hany]
    simp

/-- Witness for the amended C7: the conflict case errors, the existing-row case
succeeds without writing. -/
theorem C7_amended_witness :
    envUserConflict.userSelectError = none
    ∧ (dbEmpty.user_profile.any fun u => u.id == "userA") = false
    ∧ envUserConflict.userInsertError = some dupKeyError
    ∧ ensureUserExists envUserConflict dbEmpty "userA" =
        .error ("User creation failed: " ++ dupKeyError.message)
    ∧ (dbUserOnly.user_profile.any fun u => u.id == "userA") = true
    ∧ ensureUserExists envNoFaults dbUserOnly "userA" = .ok dbUserOnly :=
  ⟨rfl, rfl, rfl,
   C7_amended_conflict_error_sequential_idempotence.1 envUserConflict dbEmpty "userA"
     dupKeyError rfl rfl rfl,
   rfl,
   C7_amended_conflict_error_sequential_idempotence.2 envNoFaults dbUserOnly "userA" rfl rfl⟩

/-- C9 counterexample: on the duplicate_image_hash path the result carries only
scanId, method and existingScan; canonicalId, dishCount and newDishes are all
absent, contradicting the claim that every successful result contains them. -/
theorem C9_duplicate_result_lacks_fields :
    saveToSupabase envNoFaults dbWithPrior srSample "userA" =
      .ok ({ scanId := "scan-prior", method := "duplicate_image_hash",
             existingScan := some true }, dbWithPrior)
    ∧ ({ scanId := "scan-prior", method := "duplicate_image_hash",
         existingScan := some true } : SaveResult).canonicalId = none
    ∧ ({ scanId := "scan-prior", method := "duplicate_image_hash",
         existingScan := some true } : SaveResult).dishCount = none
    ∧ ({ scanId := "scan-prior", method := "duplicate_image_hash",
         existingScan := some true } : SaveResult).newDishes = none :=
  ⟨rfl, rfl, rfl, rfl⟩

/-- C9 amended: reuse and new-canonical results carry canonicalId, dishCount
and newDishes; the duplicate result carries none of them and instead has
existingScan = true. -/
theorem C9_amended_result_shape (env : SaveEnv) (db : DB) (sr : StructuredResult)
    (userId : String) (r : SaveResult) (db2 : DB)
    (h : saveToSupabase env db sr userId = .ok (r, db2)) :
    (r.method = "duplicate_image_hash" ∧ r.canonicalId = none ∧ r.dishCount = none
      ∧ r.newDishes = none ∧ r.existingScan = some true)
    ∨ ((r.method = "canonical_menu_reuse" ∨ r.method = "new_canonical_menu")
      ∧ r.canonicalId.isSome ∧ r.dishCount.isSome ∧ r.newDishes.isSome
      ∧ r.existingScan = none) := by
  simp only [saveToSupabase] at h
  repeat' split at h
  all_goals first
    | exact (Except.noConfusion h)
    | (simp only [Except.ok.injEq, Prod.mk.injEq] at h
       obtain ⟨hr, hdb⟩ := h
       subst hr
       first
         | (left; exact ⟨rfl, rfl, rfl, rfl, rfl⟩)
         | (right; exact ⟨Or.inl rfl, rfl, rfl, rfl, rfl⟩)
         | (right; exact ⟨Or.inr rfl, rfl, rfl, rfl, rfl⟩))

/-- Witness for the amended C9 on the duplicate path. -/
theorem C9_amended_result_shape_witness :
    saveToSupabase envNoFaults dbWithPrior srSample "userA" =
      .ok ({ scanId := "scan-prior", method := "duplicate_image_hash",
             existingScan := some true }, dbWithPrior)
    ∧ (({ scanId := "scan-prior", method := "duplicate_image_hash",
          existingScan := some true } : SaveResult).method = "duplicate_image_hash"
       ∧ ({ scanId := "scan-prior", method := "duplicate_image_hash",
            existingScan := some true } : SaveResult).canonicalId = none
       ∧ ({ scanId := "scan-prior", method := "duplicate_image_hash",
            existingScan := some true } : SaveResult).dishCount = none
       ∧ ({ scanId := "scan-prior", method := "duplicate_image_hash",
            existingScan := some true } : SaveResult).newDishes = none
       ∧ ({ scanId := "scan-prior", method := "duplicate_image_hash",
            existingScan := some true } : SaveResult).existingScan = some true) := by
  refine ⟨rfl, ?_⟩
  rcases C9_amended_result_shape envNoFaults dbWithPrior srSample "userA"
      { scanId := "scan-prior", method := "duplicate_image_hash",
        existingScan := some true } dbWithPrior rfl with h | h
  · exact h
  · rcases h.1 with hm | hm <;> exact absurd hm (by decide)

/-- C10: every database error in either dedup query is swallowed as not found,
so the pipeline never raises from the dedup stage; with both queries failing it
proceeds on the Novel path and creates a second ScanRecord even when matching
rows exist. -/
theorem C10_dedup_errors_swallowed :
    (∀ (e : DbError) (db : DB) (userId imageHash : String),
        checkForExistingUserScan (some e) db userId imageHash = none)
    ∧ (∀ (e : DbError) (db : DB) (contentHash : String),
        checkForExistingCanonicalMenu (some e) db contentHash = none)
    ∧ (∀ (env : SaveEnv) (db : DB) (sr : StructuredResult) (userId : String) (db1 : DB),
        env.userScanQueryError.isSome = true →
        env.canonicalQueryError.isSome = true →
        ensureUserExists env db userId = .ok db1 →
        env.canonicalInsertError = none →
        env.scanInsertError = none →
        ∃ (r : SaveResult) (db2 : DB),
          saveToSupabase env db sr userId = .ok (r, db2)
          ∧ r.method = "new_canonical_menu"
          ∧ db2.menu_scan.length = db.menu_scan.length + 1) := by
  have h1 : ∀ (e : DbError) (db : DB) (userId imageHash : String),
      checkForExistingUserScan (some e) db userId imageHash = none := by
    intro e db userId imageHash
    unfold checkForExistingUserScan
    split_ifs with hh1 hh2
    · rfl
    · rfl
    · exact absurd rfl hh2
  have h2 : ∀ (e : DbError) (db : DB) (contentHash : String),
      checkForExistingCanonicalMenu (some e) db contentHash = none := by
    intro e db contentHash
    unfold checkForExistingCanonicalMenu
    split_ifs with hh1 hh2
    · rfl
    · rfl
    · exact absurd rfl hh2
  refine ⟨h1, h2, ?_⟩
  intro env db sr userId db1 hq1 hq2 huser hci hsi
  obtain ⟨e1, he1⟩ := Option.isSome_iff_exists.mp hq1
  obtain ⟨e2, he2⟩ := Option.isSome_iff_exists.mp hq2
  have hnodup : checkForExistingUserScan env.userScanQueryError db userId sr.imageHash
      = none := by rw [he1]; exact h1 e1 db userId sr.imageHash
  have hcm : checkForExistingCanonicalMenu env.canonicalQueryError db1 sr.contentHash
      = none := by rw [he2]; exact h2 e2 db1 sr.contentHash
  obtain ⟨added, db2, hsave, _, _, _, ⟨srow, hms, _, _, _, _⟩⟩ :=
    saveToSupabase_novel env db sr userId db1 hnodup huser hcm hci hsi
  refine ⟨_, db2, hsave, rfl, ?_⟩
  rw [hms, (ensureUserExists_tables huser).2.1]
  simp

/-- Witness for C10: with transient faults on both dedup queries and a database
that already holds a matching scan and canonical menu, the call still takes the
Novel path and appends a second scan row. -/
theorem C10_dedup_errors_swallowed_witness :
    checkForExistingUserScan (some netError) dbWithPrior "userA" "imghash-1" = none
    ∧ checkForExistingCanonicalMenu (some netError) dbWithPrior "conthash-1" = none
    ∧ envQueryFaults.userScanQueryError.isSome = true
    ∧ envQueryFaults.canonicalQueryError.isSome = true
    ∧ ensureUserExists envQueryFaults dbWithPrior "userA" = .ok dbWithPrior
    ∧ (∃ (r : SaveResult) (db2 : DB),
        saveToSupabase envQueryFaults dbWithPrior srSample "userA" = .ok (r, db2)
        ∧ r.method = "new_canonical_menu"
        ∧ db2.menu_scan.length = dbWithPrior.menu_scan.length + 1) :=
  ⟨C10_dedup_errors_swallowed.1 netError dbWithPrior "userA" "imghash-1",
   C10_dedup_errors_swallowed.2.1 netError dbWithPrior "conthash-1",
   rfl, rfl, rfl,
   C10_dedup_errors_swallowed.2.2 envQueryFaults dbWithPrior srSample "userA" dbWithPrior
     rfl rfl rfl rfl rfl⟩

end Paquapp
